import Mathlib

/-!
Verification of the document-to-search-index synchronization pipeline of a
Strapi content-management application (`src/index.ts`,
`src/api/document-store/controllers/meilisearch-controller.ts` with the
embedded `meilisearch-manager`, and the older inline lifecycle-hook variant).

The dynamically-typed JavaScript values flowing through the pipeline are
embedded as the inductive type `JSValue`; records (JavaScript objects) are
association lists from field names to values.  Each source function is
translated directly; network and database effects are represented by passing
the outcome of the external call as an explicit argument.
-/

set_option maxHeartbeats 1000000
set_option maxRecDepth 100000

namespace CmsStrapi

/-- Shallow embedding of the JavaScript values handled by the pipeline:
`undefined`, `null`, strings, (integer) numbers, booleans, arrays and
objects.  Objects are association lists of named fields. -/
inductive JSValue where
  | undefined
  | null
  | str (s : String)
  | num (n : Int)
  | bool (b : Bool)
  | arr (elems : List JSValue)
  | obj (fields : List (String × JSValue))

/-- A JavaScript object: an association list of named fields. -/
abbrev JSRecord := List (String × JSValue)

/-- JavaScript truthiness: `undefined`, `null`, `false`, `0` and `""` are
falsy; every other value (including empty arrays and objects) is truthy. -/
def truthy : JSValue → Bool
  | .undefined => false
  | .null => false
  | .str s => s ≠ ""
  | .num n => n ≠ 0
  | .bool b => b
  | .arr _ => true
  | .obj _ => true

/-- The guard `apiValue !== undefined && apiValue !== null && apiValue !== ''`
of `populateField` in `src/index.ts`. -/
def definedB : JSValue → Bool
  | .undefined => false
  | .null => false
  | .str s => s ≠ ""
  | _ => true

/-- Strict-equality test with `null` (`transformedValue !== null`). -/
def isNull : JSValue → Bool
  | .null => true
  | _ => false

/-- JavaScript strict equality `===` on the values compared by the pipeline.
Primitives compare structurally; arrays and objects compare by reference, and
the two operands compared in this code base (an event payload and a freshly
fetched database record) are never aliased, so distinct references model as
`false`. -/
def jsStrictEq : JSValue → JSValue → Bool
  | .undefined, .undefined => true
  | .null, .null => true
  | .str a, .str b => a == b
  | .num a, .num b => a == b
  | .bool a, .bool b => a == b
  | _, _ => false

/-- Property read `r[f]` on an object: the value of the first field named
`f`, or `undefined` when the field is absent. -/
def getField : JSRecord → String → JSValue
  | [], _ => .undefined
  | (g, w) :: rest, f => if g = f then w else getField rest f

/-- Property write `r[f] = v` on an object: replaces the field in place, or
appends it when absent. -/
def setField : JSRecord → String → JSValue → JSRecord
  | [], f, v => [(f, v)]
  | (g, w) :: rest, f, v =>
      if g = f then (f, v) :: rest else (g, w) :: setField rest f v

/-- `r.hasOwnProperty(f)`. -/
def hasKey (r : JSRecord) (f : String) : Bool :=
  r.any (fun p => p.1 == f)

/-- Property read on an arbitrary value (`v.f`): yields `undefined` unless
the value is an object. -/
def jsGet (v : JSValue) (f : String) : JSValue :=
  match v with
  | .obj r => getField r f
  | _ => .undefined

/-- The JavaScript `a || b` operator restricted to value results. -/
def jsOr (a b : JSValue) : JSValue :=
  if truthy a then a else b

mutual

/-- The string conversion `Array.prototype.join` applies to each element:
`null` and `undefined` become the empty string, arrays flatten with `","`,
and other values convert as JavaScript `String(...)` does. -/
def toJoinString : JSValue → String
  | .undefined => ""
  | .null => ""
  | .str s => s
  | .num n => toString n
  | .bool b => if b then "true" else "false"
  | .arr xs => joinVals "," xs
  | .obj _ => "[object Object]"

/-- `elems.join(sep)` for an array of JavaScript values. -/
def joinVals (sep : String) : List JSValue → String
  | [] => ""
  | [v] => toJoinString v
  | v :: vs => toJoinString v ++ sep ++ joinVals sep vs

end

/-- `l.join(sep)` for an array already known to hold strings. -/
def joinStrs (sep : String) : List String → String
  | [] => ""
  | [s] => s
  | s :: ss => s ++ sep ++ joinStrs sep ss

/-- `s.toLowerCase()`. -/
def jsToLower (s : String) : String :=
  ⟨s.data.map Char.toLower⟩

/-- ASCII whitespace, for modelling `String.prototype.trim`. -/
def isWhite (c : Char) : Bool :=
  c = ' ' || c = '\t' || c = '\n' || c = '\r'

/-- `s.trim()`: strips whitespace from both ends. -/
def jsTrim (s : String) : String :=
  ⟨((s.data.dropWhile isWhite).reverse.dropWhile isWhite).reverse⟩

/-! ## Document Transformer

Embedding of the private helpers and `transformDocumentForSearch` of
`MeiliSearchManager` (meilisearch-manager, bundled with
`src/api/document-store/controllers/meilisearch-controller.ts`), plus the
near-duplicate document built inline by `indexToMeiliSearch` in the older
lifecycle file. -/

/-- The text of one rich-text block inside `extractTextFromBlocks`: when the
block has an array-valued `children` property, the `text` of every
`text`-typed child, joined by single spaces; otherwise the empty string. -/
def blockText (block : JSValue) : String :=
  match jsGet block "children" with
  | .arr children =>
      joinStrs " "
        ((children.filter (fun child => jsStrictEq (jsGet child "type") (.str "text"))).map
          (fun child => toJoinString (jsGet child "text")))
  | _ => ""

/-- `extractTextFromBlocks`: renders a rich-text `Description` value to plain
text; non-array inputs give the empty string. -/
def extractTextFromBlocks (blocks : JSValue) : String :=
  match blocks with
  | .arr bs => jsTrim (joinStrs " " (bs.map blockText))
  | _ => ""

/-- The text of one attachment inside `formatAttachments`: `name`,
`alternativeText` and `caption`, falsy entries skipped, joined by spaces. -/
def attachmentText (attachment : JSValue) : String :=
  joinStrs " "
    (([jsGet attachment "name", jsGet attachment "alternativeText",
       jsGet attachment "caption"].filter truthy).map toJoinString)

/-- `formatAttachments`: renders the attachment list to plain text;
non-array inputs give the empty string. -/
def formatAttachments (attachments : JSValue) : String :=
  match attachments with
  | .arr as => joinStrs " " (as.map attachmentText)
  | _ => ""

/-- The `descriptionText` local of `transformDocumentForSearch`. -/
def descriptionTextOf (d : JSRecord) : String :=
  extractTextFromBlocks (getField d "Description")

/-- The `attachmentsText` local of `transformDocumentForSearch`. -/
def attachmentsTextOf (d : JSRecord) : String :=
  formatAttachments (getField d "Attachments")

/-- The array literal from which `transformDocumentForSearch` builds the
`searchableText` field, before `.filter(Boolean).join(' ').toLowerCase()`. -/
def searchablePartsOf (d : JSRecord) : List JSValue :=
  [getField d "SF_Number",
   getField d "Unique_Id",
   getField d "Client_Name",
   getField d "Client_Contact",
   getField d "Client_Contact_Buying_Center",
   .str (descriptionTextOf d),
   getField d "Document_Confidentiality",
   getField d "Industry",
   getField d "Service",
   getField d "Author",
   getField d "SMEs",
   getField d "Competitors",
   .str (attachmentsTextOf d)]

/-- The `searchableText` field of the transformed document:
`[...].filter(Boolean).join(' ').toLowerCase()`. -/
def searchableTextOf (d : JSRecord) : String :=
  jsToLower (joinVals " " ((searchablePartsOf d).filter truthy))

/-- The nested `filters` sub-object of the transformed document. -/
def filtersOf (d : JSRecord) : JSValue :=
  .obj
    [("Client_Type", jsOr (getField d "Client_Type") (.str "")),
     ("Document_Type", jsOr (getField d "Document_Type") (.str "")),
     ("Document_Sub_Type", jsOr (getField d "Document_Sub_Type") (.str "")),
     ("Document_Confidentiality", jsOr (getField d "Document_Confidentiality") (.str "")),
     ("Industry", jsOr (getField d "Industry") (.str "")),
     ("Sub_Industry", jsOr (getField d "Sub_Industry") (.str "")),
     ("Service", jsOr (getField d "Service") (.str "")),
     ("Sub_Service", jsOr (getField d "Sub_Service") (.str "")),
     ("Business_Unit", jsOr (getField d "Business_Unit") (.str "")),
     ("Region", jsOr (getField d "Region") (.str "")),
     ("Country", jsOr (getField d "Country") (.str "")),
     ("State", jsOr (getField d "State") (.str "")),
     ("City", jsOr (getField d "City") (.str "")),
     ("Commercial_Program", jsOr (getField d "Commercial_Program") (.str "")),
     ("Document_Outcome", jsOr (getField d "Document_Outcome") (.str ""))]

/-- `transformDocumentForSearch` of `MeiliSearchManager`: the exact document
shape sent to the search engine.  Note the primary key: `id: document.id`. -/
def transformDocumentForSearch (document : JSRecord) : JSRecord :=
  [("id", getField document "id"),
   ("documentId", getField document "documentId"),
   ("SF_Number", jsOr (getField document "SF_Number") (.str "")),
   ("Unique_Id", jsOr (getField document "Unique_Id") (.str "")),
   ("Client_Name", jsOr (getField document "Client_Name") (.str "")),
   ("Client_Type", jsOr (getField document "Client_Type") (.str "")),
   ("Client_Contact", jsOr (getField document "Client_Contact") (.str "")),
   ("Client_Contact_Buying_Center", jsOr (getField document "Client_Contact_Buying_Center") (.str "")),
   ("Client_Journey", jsOr (getField document "Client_Journey") (.str "")),
   ("Document_Confidentiality", jsOr (getField document "Document_Confidentiality") (.str "")),
   ("Document_Type", jsOr (getField document "Document_Type") (.str "")),
   ("Document_Sub_Type", jsOr (getField document "Document_Sub_Type") (.str "")),
   ("Document_Value_Range", jsOr (getField document "Document_Value_Range") (.str "")),
   ("Document_Outcome", jsOr (getField document "Document_Outcome") (.str "")),
   ("Last_Stage_Change_Date", jsOr (getField document "Last_Stage_Change_Date") (.str "")),
   ("Industry", jsOr (getField document "Industry") (.str "")),
   ("Sub_Industry", jsOr (getField document "Sub_Industry") (.str "")),
   ("Service", jsOr (getField document "Service") (.str "")),
   ("Sub_Service", jsOr (getField document "Sub_Service") (.str "")),
   ("Business_Unit", jsOr (getField document "Business_Unit") (.str "")),
   ("Region", jsOr (getField document "Region") (.str "")),
   ("Country", jsOr (getField document "Country") (.str "")),
   ("State", jsOr (getField document "State") (.str "")),
   ("City", jsOr (getField document "City") (.str "")),
   ("Author", jsOr (getField document "Author") (.str "")),
   ("SMEs", jsOr (getField document "SMEs") (.str "")),
   ("Commercial_Program", jsOr (getField document "Commercial_Program") (.str "")),
   ("Competitors", jsOr (getField document "Competitors") (.str "")),
   ("publishedAt", getField document "publishedAt"),
   ("createdAt", getField document "createdAt"),
   ("updatedAt", getField document "updatedAt"),
   ("locale", getField document "locale"),
   ("Description", .str (descriptionTextOf document)),
   ("attachments_text", .str (attachmentsTextOf document)),
   ("searchableText", .str (searchableTextOf document)),
   ("filters", filtersOf document)]

/-- The `searchableDocument` literal built inline by `indexToMeiliSearch` in
the older lifecycle-hook file (the near-duplicate transformer).  Its primary
key is `id: document.documentId || document.id`, and it adds `strapiId` and
`description_text`. -/
def indexToMeiliSearchDoc (document : JSRecord) : JSRecord :=
  [("id", jsOr (getField document "documentId") (getField document "id")),
   ("documentId", getField document "documentId"),
   ("strapiId", getField document "id"),
   ("SF_Number", jsOr (getField document "SF_Number") (.str "")),
   ("Unique_Id", jsOr (getField document "Unique_Id") (.str "")),
   ("Client_Name", jsOr (getField document "Client_Name") (.str "")),
   ("Client_Type", jsOr (getField document "Client_Type") (.str "")),
   ("Client_Contact", jsOr (getField document "Client_Contact") (.str "")),
   ("Client_Contact_Buying_Center", jsOr (getField document "Client_Contact_Buying_Center") (.str "")),
   ("Client_Journey", jsOr (getField document "Client_Journey") (.str "")),
   ("Document_Confidentiality", jsOr (getField document "Document_Confidentiality") (.str "")),
   ("Document_Type", jsOr (getField document "Document_Type") (.str "")),
   ("Document_Sub_Type", jsOr (getField document "Document_Sub_Type") (.str "")),
   ("Document_Value_Range", jsOr (getField document "Document_Value_Range") (.str "")),
   ("Document_Outcome", jsOr (getField document "Document_Outcome") (.str "")),
   ("Last_Stage_Change_Date", jsOr (getField document "Last_Stage_Change_Date") (.str "")),
   ("Industry", jsOr (getField document "Industry") (.str "")),
   ("Sub_Industry", jsOr (getField document "Sub_Industry") (.str "")),
   ("Service", jsOr (getField document "Service") (.str "")),
   ("Sub_Service", jsOr (getField document "Sub_Service") (.str "")),
   ("Business_Unit", jsOr (getField document "Business_Unit") (.str "")),
   ("Region", jsOr (getField document "Region") (.str "")),
   ("Country", jsOr (getField document "Country") (.str "")),
   ("State", jsOr (getField document "State") (.str "")),
   ("City", jsOr (getField document "City") (.str "")),
   ("Author", jsOr (getField document "Author") (.str "")),
   ("SMEs", jsOr (getField document "SMEs") (.str "")),
   ("Commercial_Program", jsOr (getField document "Commercial_Program") (.str "")),
   ("Competitors", jsOr (getField document "Competitors") (.str "")),
   ("publishedAt", getField document "publishedAt"),
   ("createdAt", getField document "createdAt"),
   ("updatedAt", getField document "updatedAt"),
   ("locale", getField document "locale"),
   ("Description", .str (descriptionTextOf document)),
   ("description_text", .str (descriptionTextOf document)),
   ("attachments_text", .str (attachmentsTextOf document)),
   ("searchableText", .str (searchableTextOf document)),
   ("filters", filtersOf document)]

/-! ## Field Mapper (`mapAPIFieldsToStrapi` in `src/index.ts`) -/

/-- The `schemaEnums` lookup table: the fixed allow-list for each of the 15
enum-constrained classification fields; `none` for every other field. -/
def schemaEnums (field : String) : Option (List String) :=
  if field = "Client_Type" then
    some ["Global Key Client", "Regional Key Client", "Regional Market Portfolio", "Client"]
  else if field = "Document_Confidentiality" then
    some ["Not Confidential", "Confidential"]
  else if field = "Document_Type" then
    some ["Proposal", "External case study", "Internal win story", "Experience listing",
          "Pitch content", "Marketing material", "Thought leadership"]
  else if field = "Document_Sub_Type" then
    some ["Sole-source", "RFP Response", "Competitive", "Change Order", "Standalone",
          "EOI", "RFI", "RFQ"]
  else if field = "Document_Outcome" then
    some ["Won", "Lost", "Abandoned", "Decision in progress",
          "Scope changed (Proposal Revised)", "Full Proposal Not Yet Submitted"]
  else if field = "Industry" then some ["Industry A", "Industry B", "Industry C"]
  else if field = "Sub_Industry" then some ["Sub A", "Sub B", "Sub C"]
  else if field = "Service" then some ["Service A", "Service B", "Service C"]
  else if field = "Sub_Service" then some ["Sub A", "Sub B", "Sub C"]
  else if field = "Business_Unit" then some ["BU A", "BU B", "BU C"]
  else if field = "Region" then some ["Region A", "Region B", "Region C"]
  else if field = "Country" then some ["India", "USA", "UK"]
  else if field = "State" then some ["Delhi", "California", "London"]
  else if field = "City" then some ["New Delhi", "San Francisco", "Manchester"]
  else if field = "Commercial_Program" then some ["R2L", "High Priority", "N/A"]
  else none

/-- `Array.prototype.includes` on an allow-list of strings (strict
same-value comparison, so a non-string value is never a member). -/
def jsIncludes (l : List String) (v : JSValue) : Bool :=
  match v with
  | .str s => l.contains s
  | _ => false

/-- `validateEnum`: a falsy value, or a field without an allow-list, passes
through; otherwise a value in the allow-list passes through and anything
else becomes `null`. -/
def validateEnum (field : String) (value : JSValue) : JSValue :=
  if !truthy value || (schemaEnums field).isNone then value
  else if jsIncludes ((schemaEnums field).getD []) value then value else .null

/-- The `Description` transformer: a plain string is wrapped into a
single-paragraph rich-text block structure; other values pass through. -/
def descriptionTransformer (val : JSValue) : JSValue :=
  match val with
  | .str s =>
      .arr [.obj [("type", .str "paragraph"),
                  ("children", .arr [.obj [("type", .str "text"), ("text", .str s)]])]]
  | v => v

/-- Civil-date to day-count conversion (days since 1970-01-01),
modelling the arithmetic the JavaScript runtime performs for `Date`. -/
def daysFromCivil (y : Int) (m d : Nat) : Int :=
  let y' : Int := if m ≤ 2 then y - 1 else y
  let era : Int := Int.fdiv y' 400
  let yoe : Nat := (y' - era * 400).toNat
  let mp : Nat := (m + 9) % 12
  let doy : Nat := (153 * mp + 2) / 5 + d - 1
  let doe : Nat := yoe * 365 + yoe / 4 - yoe / 100 + doy
  era * 146097 + doe - 719468

/-- Day count back to the civil date `(year, month, day)`; the inverse used
to model `Date.prototype.toISOString`. -/
def civilFromDays (z0 : Int) : Int × Nat × Nat :=
  let z : Int := z0 + 719468
  let era : Int := Int.fdiv z 146097
  let doe : Nat := (z - era * 146097).toNat
  let yoe : Nat := (doe - doe / 1460 + doe / 36524 - doe / 146096) / 365
  let y : Int := yoe + era * 400
  let doy : Nat := doe - (365 * yoe + yoe / 4 - yoe / 100)
  let mp : Nat := (5 * doy + 2) / 153
  let d : Nat := doy - (153 * mp + 2) / 5 + 1
  let m : Nat := if mp < 10 then mp + 3 else mp - 9
  (if m ≤ 2 then y + 1 else y, m, d)

/-- Days in a month of the proleptic Gregorian calendar. -/
def daysInMonth (y : Int) (m : Nat) : Nat :=
  if m = 2 then
    if Int.emod y 4 = 0 ∧ (Int.emod y 100 ≠ 0 ∨ Int.emod y 400 = 0) then 29 else 28
  else if m = 4 ∨ m = 6 ∨ m = 9 ∨ m = 11 then 30
  else 31

/-- Split a character list at every occurrence of the separator character
(the single-character case of `String.prototype.split`). -/
def splitSep (c : Char) : List Char → List (List Char)
  | [] => [[]]
  | x :: xs =>
      if x = c then [] :: splitSep c xs
      else
        match splitSep c xs with
        | r :: rs => (x :: r) :: rs
        | [] => [[x]]

/-- Fixed-width decimal parse: `some n` when the input is exactly `w`
digits. -/
def parseFixedNat (w : Nat) (l : List Char) : Option Nat :=
  if l.length = w ∧ l.all Char.isDigit then
    some (l.foldl (fun acc c => acc * 10 + (c.toNat - 48)) 0)
  else none

/-- Parse the calendar-date part `YYYY-MM-DD` of an ISO-8601 string,
validating month and day ranges as the runtime does. -/
def parseISODate (l : List Char) : Option (Int × Nat × Nat) :=
  match splitSep '-' l with
  | [ys, ms, ds] =>
      match parseFixedNat 4 ys, parseFixedNat 2 ms, parseFixedNat 2 ds with
      | some y, some m, some d =>
          if 1 ≤ m ∧ m ≤ 12 ∧ 1 ≤ d ∧ d ≤ daysInMonth y m then
            some ((y : Int), m, d)
          else none
      | _, _, _ => none
  | _ => none

/-- Parse the seconds field `SS` or `SS.sss` to seconds and milliseconds. -/
def parseISOSeconds (l : List Char) : Option (Nat × Nat) :=
  match splitSep '.' l with
  | [sec] => (parseFixedNat 2 sec).map (fun n => (n, 0))
  | [sec, milli] =>
      match parseFixedNat 2 sec, parseFixedNat 3 milli with
      | some n, some k => some (n, k)
      | _, _ => none
  | _ => none

/-- Parse the time part `HH:MM[:SS[.sss]]` (optionally suffixed `Z`) of an
ISO-8601 string to milliseconds past midnight. -/
def parseISOTime (l0 : List Char) : Option Nat :=
  let l := if l0.getLast? = some 'Z' then l0.dropLast else l0
  match splitSep ':' l with
  | [hs, ms] =>
      match parseFixedNat 2 hs, parseFixedNat 2 ms with
      | some h, some m => if h ≤ 23 ∧ m ≤ 59 then some ((h * 60 + m) * 60000) else none
      | _, _ => none
  | [hs, ms, ss] =>
      match parseFixedNat 2 hs, parseFixedNat 2 ms, parseISOSeconds ss with
      | some h, some m, some sm =>
          if h ≤ 23 ∧ m ≤ 59 ∧ sm.1 ≤ 59 then
            some (((h * 60 + m) * 60 + sm.1) * 1000 + sm.2)
          else none
      | _, _, _ => none
  | _ => none

/-- Model of `new Date(string).getTime()` for the ISO-8601 date and
date-time forms (interpreted in UTC, the environment this system runs in):
`some` milliseconds since the epoch on a successful parse, `none` when the
runtime would produce an Invalid Date (`NaN`). -/
def jsDateParse (s : String) : Option Int :=
  match splitSep 'T' s.data with
  | [ds] =>
      (parseISODate ds).map (fun p => daysFromCivil p.1 p.2.1 p.2.2 * 86400000)
  | [ds, ts] =>
      match parseISODate ds, parseISOTime ts with
      | some p, some ms => some (daysFromCivil p.1 p.2.1 p.2.2 * 86400000 + ms)
      | _, _ => none
  | _ => none

/-- Zero-padded decimal rendering. -/
def padNat (w n : Nat) : String :=
  let s := toString n
  String.mk (List.replicate (w - s.length) '0') ++ s

/-- The calendar-date prefix of `Date.prototype.toISOString`, i.e.
`date.toISOString().split('T')[0]`: the UTC date formatted `YYYY-MM-DD`. -/
def isoDatePart (ms : Int) : String :=
  let c := civilFromDays (Int.fdiv ms 86400000)
  padNat 4 c.1.toNat ++ "-" ++ padNat 2 c.2.1 ++ "-" ++ padNat 2 c.2.2

/-- The `Last_Stage_Change_Date` transformer: a string is parsed as a date
and normalized to `YYYY-MM-DD`, or replaced by `null` when the parse fails;
non-string values pass through. -/
def dateTransformer (val : JSValue) : JSValue :=
  match val with
  | .str s =>
      match jsDateParse s with
      | some t => .str (isoDatePart t)
      | none => .null
  | v => v

/-- The `Author` and `SMEs` transformer: an array is joined into a
comma-and-space-separated string; other values pass through. -/
def peopleTransformer (val : JSValue) : JSValue :=
  match val with
  | .arr xs => .str (joinVals ", " xs)
  | v => v

/-- An optional per-field transformer, as taken by `populateField`. -/
abbrev FieldTransformer := Option (JSValue → JSValue)

/-- Apply an optional transformer (`transformer ? transformer(apiValue) :
apiValue`). -/
def applyTransformer : FieldTransformer → JSValue → JSValue
  | some t, v => t v
  | none, v => v

/-- `populateField`: writes the (transformed) enrichment value into the
target record only when the target's current value is falsy, the enrichment
value is defined, non-null and non-empty, and the transformed value is not
`null`. -/
def populateField (strapiData : JSRecord) (strapiField : String) (apiValue : JSValue)
    (transformer : FieldTransformer) : JSRecord :=
  if !truthy (getField strapiData strapiField) && definedB apiValue then
    let transformedValue := applyTransformer transformer apiValue
    if isNull transformedValue then strapiData
    else setField strapiData strapiField transformedValue
  else strapiData

/-- The value `populateField` leaves in its own field, as a pure function of
the field's current value, the enrichment value and the transformer. -/
def popAt (cur apiValue : JSValue) (transformer : FieldTransformer) : JSValue :=
  if !truthy cur && definedB apiValue then
    let transformedValue := applyTransformer transformer apiValue
    if isNull transformedValue then cur else transformedValue
  else cur

/-- The sequence of `populateField` calls issued by `mapAPIFieldsToStrapi`,
in source order: each entry is the field name (identical on the Strapi and
enrichment sides throughout the source) and its optional transformer. -/
def fieldMappings : List (String × FieldTransformer) :=
  [("Unique_Id", none),
   ("Client_Name", none),
   ("Client_Contact", none),
   ("Client_Contact_Buying_Center", none),
   ("Client_Journey", none),
   ("Document_Value_Range", none),
   ("Competitors", none),
   ("Client_Type", some (validateEnum "Client_Type")),
   ("Document_Confidentiality", some (validateEnum "Document_Confidentiality")),
   ("Document_Type", some (validateEnum "Document_Type")),
   ("Document_Sub_Type", some (validateEnum "Document_Sub_Type")),
   ("Document_Outcome", some (validateEnum "Document_Outcome")),
   ("Industry", some (validateEnum "Industry")),
   ("Sub_Industry", some (validateEnum "Sub_Industry")),
   ("Service", some (validateEnum "Service")),
   ("Sub_Service", some (validateEnum "Sub_Service")),
   ("Business_Unit", some (validateEnum "Business_Unit")),
   ("Region", some (validateEnum "Region")),
   ("Country", some (validateEnum "Country")),
   ("State", some (validateEnum "State")),
   ("City", some (validateEnum "City")),
   ("Commercial_Program", some (validateEnum "Commercial_Program")),
   ("Description", some descriptionTransformer),
   ("Last_Stage_Change_Date", some dateTransformer),
   ("Author", some peopleTransformer),
   ("SMEs", some peopleTransformer)]

/-- One step of the mapping: `populateField(name, apiData[name],
transformer)`. -/
def mapStep (apiData strapiData : JSRecord) (p : String × FieldTransformer) : JSRecord :=
  populateField strapiData p.1 (getField apiData p.1) p.2

/-- `mapAPIFieldsToStrapi`: applies every `populateField` call of the source
in order, returning the updated target record (the source mutates
`strapiData` in place). -/
def mapAPIFieldsToStrapi (strapiData apiData : JSRecord) : JSRecord :=
  fieldMappings.foldl (mapStep apiData) strapiData

/-! ## Synchronization Orchestrator (lifecycle hooks in `src/index.ts`)

Network and database effects are embedded by passing the outcome of each
external call as an argument: `Except String x` for a database call that can
throw, and `Option JSRecord` for the enrichment fetch (`some apiData` when
the FastAPI response arrived with `success: true`, `none` for any failure,
which `fetchAndPopulateFromFastAPI` swallows). -/

/-- Outcome of a lifecycle pre-hook: the (possibly enriched) pending payload
together with the number of Enrichment Client calls performed. -/
structure HookOutcome where
  data : JSRecord
  enrichCalls : Nat

/-- `fetchAndPopulateFromFastAPI`: one network call; on a successful
response the Field Mapper merges the payload into the pending record, on any
failure the record is left unchanged (the error is swallowed). -/
def fetchAndPopulateFromFastAPI (data : JSRecord) (fetchResult : Option JSRecord) : JSRecord :=
  match fetchResult with
  | some apiData => mapAPIFieldsToStrapi data apiData
  | none => data

/-- The `beforeCreate` hook: enrich only when `SF_Number` is truthy and no
`manualOverride` flag is set. -/
def beforeCreate (data : JSRecord) (fetchResult : Option JSRecord) : HookOutcome :=
  if truthy (getField data "SF_Number") && !truthy (getField data "manualOverride") then
    ⟨fetchAndPopulateFromFastAPI data fetchResult, 1⟩
  else ⟨data, 0⟩

/-- The `beforeUpdate` hook.  `existing` is the outcome of the
`entityService.findOne` lookup of the stored record (`Except.error` when the
lookup throws; the surrounding `try/catch` then skips enrichment). -/
def beforeUpdate (data : JSRecord) (existing : Except String (Option JSRecord))
    (fetchResult : Option JSRecord) : HookOutcome :=
  if hasKey data "publishedAt" then
    ⟨data, 0⟩
  else if truthy (getField data "SF_Number") && !truthy (getField data "manualOverride") then
    match existing with
    | .error _ => ⟨data, 0⟩
    | .ok none => ⟨fetchAndPopulateFromFastAPI data fetchResult, 1⟩
    | .ok (some existingRecord) =>
        if jsStrictEq (getField existingRecord "SF_Number") (getField data "SF_Number") then
          ⟨data, 0⟩
        else ⟨fetchAndPopulateFromFastAPI data fetchResult, 1⟩
  else ⟨data, 0⟩

/-- `checkIfDocumentIsPublished`: re-reads `publishedAt` with a direct
database query; returns `true` only when a record was found and its
`publishedAt` is neither `null` nor `undefined`.  A lookup failure or a
missing record yields `false`. -/
def checkIfDocumentIsPublished (lookup : Except String (Option JSRecord)) : Bool :=
  match lookup with
  | .error _ => false
  | .ok none => false
  | .ok (some dbDoc) =>
      match getField dbDoc "publishedAt" with
      | .null => false
      | .undefined => false
      | _ => true

/-- The index operation a post-hook decides on. -/
inductive SyncAction where
  | indexDoc (doc : JSRecord)
  | removeDoc (key : JSValue)
  | noAction

/-- The `afterCreate` hook: index the result document when the published
check succeeds, otherwise do nothing. -/
def afterCreateAction (result : JSRecord) (lookup : Except String (Option JSRecord)) :
    SyncAction :=
  if checkIfDocumentIsPublished lookup then
    .indexDoc (transformDocumentForSearch result)
  else .noAction

/-- The `afterUpdate` hook: index the result document when the published
check succeeds, otherwise remove `result.documentId || result.id` from the
index. -/
def afterUpdateAction (result : JSRecord) (lookup : Except String (Option JSRecord)) :
    SyncAction :=
  if checkIfDocumentIsPublished lookup then
    .indexDoc (transformDocumentForSearch result)
  else .removeDoc (jsOr (getField result "documentId") (getField result "id"))

/-- The `afterDelete` hook (identical in both lifecycle files): remove
`result.documentId || result.id` from the index. -/
def afterDeleteAction (result : JSRecord) : SyncAction :=
  .removeDoc (jsOr (getField result "documentId") (getField result "id"))

/-! ## Index Manager (`MeiliSearchManager`) -/

/-- Fuel-based recursion for the `rebuildIndex` batching loop: while the
remainder is non-empty, slice off `slice(i, i + 100)` and continue after it.
Each iteration shortens the remainder, so the initial list length bounds the
iteration count and serves as fuel, keeping the definition reducible by
computation; the fuel-exhausted case is unreachable. -/
def batchesOfAux : Nat → List JSRecord → List (List JSRecord)
  | _, [] => []
  | 0, l => [l]
  | fuel + 1, l => l.take 100 :: batchesOfAux fuel (l.drop 100)

/-- The batches the `rebuildIndex` loop slices with
`searchableDocuments.slice(i, i + batchSize)`, `batchSize = 100`. -/
def batchesOf (l : List JSRecord) : List (List JSRecord) :=
  batchesOfAux l.length l

/-- `rebuildIndex`: transforms every fetched published record, submits the
documents in sequential batches of 100, and counts a failed batch as skipped
without aborting the remaining batches.  `batchOk k` is the outcome of the
engine's `addDocuments` call for the `k`-th batch (0-based).  Returns
`(indexed, skipped)`. -/
def rebuildIndex (documents : List JSRecord) (batchOk : Nat → Bool) : Nat × Nat :=
  if documents.isEmpty then (0, 0)
  else
    (batchesOf (documents.map transformDocumentForSearch)).enum.foldl
      (fun acc p =>
        if batchOk p.1 then (acc.1 + p.2.length, acc.2) else (acc.1, acc.2 + p.2.length))
      (0, 0)

/-- The structured result of `refreshIndex`. -/
structure RefreshResult where
  success : Bool
  message : String
  stats : Option (Nat × Nat)

/-- `refreshIndex`: `clearIndex()` then `rebuildIndex()` inside one
`try/catch`; every failure is captured and returned as a structured result
with `success: false` instead of propagating.  `clearOutcome` and
`rebuildOutcome` are the outcomes of the two steps (`Except.error` when the
step throws); the rebuild outcome is consulted only when the clear
succeeded. -/
def refreshIndex (clearOutcome : Except String Unit)
    (rebuildOutcome : Except String (Nat × Nat)) : RefreshResult :=
  match clearOutcome with
  | .error e => ⟨false, "Index refresh failed: " ++ e, none⟩
  | .ok _ =>
      match rebuildOutcome with
      | .error e => ⟨false, "Index refresh failed: " ++ e, none⟩
      | .ok result =>
          ⟨true, "Index refreshed successfully. Indexed " ++ toString result.1 ++ " documents.",
           some result⟩

/-! ## Basic lemmas about field access -/

theorem getField_setField_self (r : JSRecord) (f : String) (v : JSValue) :
    getField (setField r f v) f = v := by
  induction r with
  | nil => simp [setField, getField]
  | cons p rest ih =>
      obtain ⟨g, w⟩ := p
      by_cases hg : g = f
      · simp [setField, hg, getField]
      · simp [setField, hg, getField, ih]

theorem getField_setField_ne (r : JSRecord) (f g : String) (v : JSValue) (h : g ≠ f) :
    getField (setField r f v) g = getField r g := by
  induction r with
  | nil => simp [setField, getField, Ne.symm h]
  | cons p rest ih =>
      obtain ⟨k, w⟩ := p
      by_cases hk : k = f
      · subst hk
        simp [setField, getField, Ne.symm h]
      · simp [setField, hk, getField, ih]

theorem populateField_getField_self (d : JSRecord) (f : String) (v : JSValue)
    (t : FieldTransformer) :
    getField (populateField d f v t) f = popAt (getField d f) v t := by
  unfold populateField popAt
  by_cases hg : (!truthy (getField d f) && definedB v) = true
  · simp only [hg, if_true]
    by_cases hn : isNull (applyTransformer t v) = true
    · simp [hn]
    · simp only [Bool.not_eq_true] at hn
      simp [hn, getField_setField_self]
  · simp only [Bool.not_eq_true] at hg
    simp [hg]

theorem populateField_getField_ne (d : JSRecord) (f g : String) (v : JSValue)
    (t : FieldTransformer) (h : g ≠ f) :
    getField (populateField d f v t) g = getField d g := by
  unfold populateField
  by_cases hg : (!truthy (getField d f) && definedB v) = true
  · simp only [hg, if_true]
    by_cases hn : isNull (applyTransformer t v) = true
    · simp [hn]
    · simp only [Bool.not_eq_true] at hn
      simp [hn, getField_setField_ne _ _ _ _ h]
  · simp only [Bool.not_eq_true] at hg
    simp [hg]

/-- Folding the mapping steps over fields other than `f` leaves `f`
untouched. -/
theorem foldl_mapStep_preserves (api : JSRecord) (f : String) :
    ∀ (l : List (String × FieldTransformer)) (d : JSRecord),
      (∀ p ∈ l, p.1 ≠ f) → getField (l.foldl (mapStep api) d) f = getField d f := by
  intro l
  induction l with
  | nil => intro d _; rfl
  | cons p rest ih =>
      intro d hl
      have hp : p.1 ≠ f := hl p (List.mem_cons_self p rest)
      calc getField ((p :: rest).foldl (mapStep api) d) f
          = getField (rest.foldl (mapStep api) (mapStep api d p)) f := rfl
        _ = getField (mapStep api d p) f :=
            ih (mapStep api d p) (fun q hq => hl q (List.mem_cons_of_mem p hq))
        _ = getField d f := populateField_getField_ne _ _ _ _ _ (fun hh => hp hh.symm)

/-- Master lemma for the Field Mapper: with pairwise-distinct field names,
the final value of the `i`-th mapped field is `popAt` of its initial value
and its enrichment value. -/
theorem foldl_mapStep_master (api : JSRecord) :
    ∀ (l : List (String × FieldTransformer)), (l.map Prod.fst).Nodup →
      ∀ (d : JSRecord) (n : Fin l.length),
        getField (l.foldl (mapStep api) d) (l.get n).1
          = popAt (getField d (l.get n).1) (getField api (l.get n).1)
              (l.get n).2 := by
  intro l
  induction l with
  | nil => intro _ d n; exact absurd n.2 (Nat.not_lt_zero n.1)
  | cons p rest ih =>
      intro hnd d n
      obtain ⟨i, h⟩ := n
      rw [List.map_cons, List.nodup_cons] at hnd
      obtain ⟨hp, hrest⟩ := hnd
      match i with
      | 0 =>
          have hne : ∀ q ∈ rest, q.1 ≠ p.1 := by
            intro q hq hqe
            exact hp (hqe ▸ List.mem_map_of_mem Prod.fst hq)
          calc getField ((p :: rest).foldl (mapStep api) d) p.1
              = getField (rest.foldl (mapStep api) (mapStep api d p)) p.1 := rfl
            _ = getField (mapStep api d p) p.1 :=
                foldl_mapStep_preserves api p.1 rest (mapStep api d p) hne
            _ = popAt (getField d p.1) (getField api p.1) p.2 :=
                populateField_getField_self d p.1 (getField api p.1) p.2
      | (j + 1) =>
          have hj : j < rest.length := Nat.lt_of_succ_lt_succ h
          have hname : (rest.get ⟨j, hj⟩).1 ≠ p.1 := by
            intro hh
            exact hp (hh ▸ List.mem_map_of_mem Prod.fst (List.get_mem rest j hj))
          have step : getField (mapStep api d p) (rest.get ⟨j, hj⟩).1
              = getField d (rest.get ⟨j, hj⟩).1 :=
            populateField_getField_ne _ _ _ _ _ hname
          calc getField ((p :: rest).foldl (mapStep api) d) ((p :: rest).get ⟨j + 1, h⟩).1
              = getField (rest.foldl (mapStep api) (mapStep api d p)) (rest.get ⟨j, hj⟩).1 := rfl
            _ = popAt (getField (mapStep api d p) (rest.get ⟨j, hj⟩).1)
                  (getField api (rest.get ⟨j, hj⟩).1) (rest.get ⟨j, hj⟩).2 :=
                ih hrest (mapStep api d p) ⟨j, hj⟩
            _ = popAt (getField d (rest.get ⟨j, hj⟩).1)
                  (getField api (rest.get ⟨j, hj⟩).1) (rest.get ⟨j, hj⟩).2 := by rw [step]

/-- The 26 field names written by `mapAPIFieldsToStrapi` are pairwise
distinct. -/
theorem fieldMappings_names_nodup : (fieldMappings.map Prod.fst).Nodup := by
  decide

/-- A field the mapper's guard rejects is left unchanged: `popAt` keeps the
current value whenever the current value is truthy or the enrichment value
is not defined, non-null and non-empty. -/
theorem popAt_guard_false (cur v : JSValue) (t : FieldTransformer)
    (h : truthy cur = true ∨ definedB v = false) : popAt cur v t = cur := by
  unfold popAt
  rcases h with h | h <;> simp [h]

theorem popAt_guard_true (cur v : JSValue) (t : FieldTransformer)
    (hcur : truthy cur = false) (hv : definedB v = true) :
    popAt cur v t
      = if isNull (applyTransformer t v) then cur else applyTransformer t v := by
  unfold popAt
  simp [hcur, hv]

/-! ## Substring lemmas for the composite searchable text -/

theorem isInfix_self (l : List Char) : l <:+: l :=
  ⟨[], [], by simp⟩

theorem isInfix_append_of_left (a b : List Char) : a <:+: a ++ b :=
  ⟨[], b, by simp⟩

theorem isInfix_append_of_right (a b : List Char) (h : a <:+: b) (c : List Char) :
    a <:+: c ++ b := by
  obtain ⟨s, t, hst⟩ := h
  refine ⟨c ++ s, t, ?_⟩
  simp only [List.append_assoc] at hst ⊢
  rw [hst]

/-- A member of an array is a substring of the array joined by any
separator. -/
theorem joinVals_infixOf_mem (sep : String) :
    ∀ (vals : List JSValue), ∀ v ∈ vals,
      (toJoinString v).data <:+: (joinVals sep vals).data := by
  intro vals
  induction vals with
  | nil => intro v hv; exact absurd hv (List.not_mem_nil v)
  | cons x xs ih =>
      intro v hv
      match xs, ih with
      | [], _ =>
          have hvx : v = x := by simpa using hv
          subst hvx
          exact isInfix_self _
      | y :: ys, ih =>
          rcases List.mem_cons.mp hv with hvx | hvtail
          · subst hvx
            show (toJoinString v).data <:+: (toJoinString v ++ sep ++ joinVals sep (y :: ys)).data
            rw [String.data_append, String.data_append, List.append_assoc]
            exact isInfix_append_of_left _ _
          · have htail := ih v hvtail
            show (toJoinString v).data <:+: (toJoinString x ++ sep ++ joinVals sep (y :: ys)).data
            rw [String.data_append, String.data_append, List.append_assoc]
            exact isInfix_append_of_right _ _
              (isInfix_append_of_right _ _ htail sep.data) (toJoinString x).data

/-- `searchableTextOf` contains (lowercased) every truthy element of the
parts array. -/
theorem searchableTextOf_contains (d : JSRecord) (v : JSValue)
    (hv : v ∈ searchablePartsOf d) (ht : truthy v = true) :
    ((toJoinString v).data.map Char.toLower) <:+: (searchableTextOf d).data := by
  have hmem : v ∈ (searchablePartsOf d).filter truthy :=
    List.mem_filter.mpr ⟨hv, ht⟩
  have hinf := joinVals_infixOf_mem " " ((searchablePartsOf d).filter truthy) v hmem
  exact hinf.map Char.toLower

/-! ## Counting lemmas for `rebuildIndex` -/

theorem foldl_batch_sum (ok : Nat → Bool) :
    ∀ (bs : List (Nat × List JSRecord)) (acc : Nat × Nat),
      (bs.foldl
          (fun acc p =>
            if ok p.1 then (acc.1 + p.2.length, acc.2) else (acc.1, acc.2 + p.2.length))
          acc).1
        + (bs.foldl
            (fun acc p =>
              if ok p.1 then (acc.1 + p.2.length, acc.2) else (acc.1, acc.2 + p.2.length))
            acc).2
        = acc.1 + acc.2 + (bs.map (fun p => p.2.length)).sum := by
  intro bs
  induction bs with
  | nil => intro acc; simp
  | cons p rest ih =>
      intro acc
      by_cases hp : ok p.1 = true <;>
        simp only [List.foldl_cons, hp, if_true, if_false, Bool.false_eq_true, ite_false,
          ite_true, List.map_cons, List.sum_cons] <;>
        rw [ih] <;> omega

theorem batchesOfAux_length_sum : ∀ (fuel : Nat) (l : List JSRecord),
    ((batchesOfAux fuel l).map List.length).sum = l.length := by
  intro fuel
  induction fuel with
  | zero =>
      intro l
      cases l with
      | nil => simp [batchesOfAux]
      | cons x xs => simp [batchesOfAux]
  | succ n ihn =>
      intro l
      cases l with
      | nil => simp [batchesOfAux]
      | cons x xs =>
          simp only [batchesOfAux, List.map_cons, List.sum_cons, ihn,
            List.length_take, List.length_drop]
          omega

theorem batchesOf_length_sum (l : List JSRecord) :
    ((batchesOf l).map List.length).sum = l.length :=
  batchesOfAux_length_sum l.length l

/-- The two counters of `rebuildIndex` always account for every fetched
record: `indexed + skipped = total`. -/
theorem rebuildIndex_counts (docs : List JSRecord) (ok : Nat → Bool) :
    (rebuildIndex docs ok).1 + (rebuildIndex docs ok).2 = docs.length := by
  unfold rebuildIndex
  by_cases he : docs.isEmpty
  · simp [he, List.isEmpty_iff.mp he]
  · simp only [he, Bool.false_eq_true, ite_false]
    rw [foldl_batch_sum]
    have h1 : ((batchesOf (docs.map transformDocumentForSearch)).enum.map
          (fun p : Nat × List JSRecord => p.2.length))
        = (batchesOf (docs.map transformDocumentForSearch)).map List.length := by
      have : (fun p : Nat × List JSRecord => p.2.length) = List.length ∘ Prod.snd := rfl
      rw [this, ← List.map_map, List.enum_map_snd]
    rw [h1, batchesOf_length_sum, List.length_map]
    simp

/-- The Field Mapper at one of its 26 mapped fields: the final value is
`popAt` of the initial value, the enrichment value and the entry's
transformer. -/
theorem mapAPIFields_at_entry (target api : JSRecord) (n : Fin fieldMappings.length)
    (f : String) (t : FieldTransformer) (hget : fieldMappings.get n = (f, t)) :
    getField (mapAPIFieldsToStrapi target api) f
      = popAt (getField target f) (getField api f) t := by
  have h := foldl_mapStep_master api fieldMappings fieldMappings_names_nodup target n
  rw [hget] at h
  exact h

/-- Behaviour of the Field Mapper at any enum-constrained entry: with an
empty target slot and a non-empty string value, the field is set exactly
when the value is in the field's allow-list, and left unchanged
otherwise. -/
theorem enum_entry_behaviour (f : String) (target : JSRecord) (s : String)
    (n : Fin fieldMappings.length)
    (hget : fieldMappings.get n = (f, some (validateEnum f)))
    (hsome : (schemaEnums f).isNone = false)
    (hcur : truthy (getField target f) = false) (hs : s ≠ "") :
    (s ∈ (schemaEnums f).getD [] →
      getField (mapAPIFieldsToStrapi target [(f, JSValue.str s)]) f = JSValue.str s)
    ∧ (s ∉ (schemaEnums f).getD [] →
      getField (mapAPIFieldsToStrapi target [(f, JSValue.str s)]) f = getField target f) := by
  have hm := mapAPIFields_at_entry target [(f, JSValue.str s)] n f _ hget
  have hapi : getField [(f, JSValue.str s)] f = JSValue.str s := by simp [getField]
  rw [hapi] at hm
  have hdef : definedB (JSValue.str s) = true := by simp [definedB, hs]
  have happ : applyTransformer (some (validateEnum f)) (JSValue.str s)
      = validateEnum f (JSValue.str s) := rfl
  constructor
  · intro hmem
    have hcon : ((schemaEnums f).getD []).contains s = true := by simpa using hmem
    have hval : validateEnum f (JSValue.str s) = JSValue.str s := by
      simp [validateEnum, truthy, hs, hsome, jsIncludes, hcon, hmem]
    rw [hm, popAt_guard_true _ _ _ hcur hdef, happ, hval]
    simp [isNull]
  · intro hmem
    have hcon : ((schemaEnums f).getD []).contains s = false := by simpa using hmem
    have hval : validateEnum f (JSValue.str s) = JSValue.null := by
      simp [validateEnum, truthy, hs, hsome, jsIncludes, hcon, hmem]
    rw [hm, popAt_guard_true _ _ _ hcur hdef, happ, hval]
    simp [isNull]

/-! ## Claims -/

/-- C1: the claim states that the output document's primary-key field `id`
always equals the record's `documentId`.  The Document Transformer of the
manager path (`transformDocumentForSearch`) instead emits the internal
numeric id: at a record with internal id `5` and document identifier
`"abc123"` it outputs `id = 5`, which differs from the `documentId`; only
the older inline transformer (`indexToMeiliSearch`) emits
`documentId || id` as the spec requires. -/
theorem c1_transform_primary_key_is_internal_id :
    getField (transformDocumentForSearch
        [("id", JSValue.num 5), ("documentId", JSValue.str "abc123")]) "id" = JSValue.num 5
    ∧ getField (indexToMeiliSearchDoc
        [("id", JSValue.num 5), ("documentId", JSValue.str "abc123")]) "id"
      = JSValue.str "abc123"
    ∧ getField (transformDocumentForSearch
        [("id", JSValue.num 5), ("documentId", JSValue.str "abc123")]) "id"
      ≠ getField [("id", JSValue.num 5), ("documentId", JSValue.str "abc123")] "documentId" := by
  refine ⟨rfl, rfl, fun h => ?_⟩
  exact absurd h (by simp [getField, transformDocumentForSearch])

/-- C2: a pre-update event whose payload contains the key `publishedAt`
(with any value, `null` included) performs no enrichment fetch and leaves
the pending payload completely unchanged. -/
theorem c2_beforeUpdate_publish_guard (data : JSRecord)
    (existing : Except String (Option JSRecord)) (fetchResult : Option JSRecord)
    (h : hasKey data "publishedAt" = true) :
    beforeUpdate data existing fetchResult = ⟨data, 0⟩ := by
  unfold beforeUpdate
  simp [h]

/-- Witness for C2: a payload setting only `publishedAt: null` passes
through `beforeUpdate` untouched, with zero Enrichment Client calls, even
when an enrichment payload would have been available. -/
theorem c2_beforeUpdate_publish_guard_witness :
    hasKey [("publishedAt", JSValue.null)] "publishedAt" = true
    ∧ beforeUpdate [("publishedAt", JSValue.null)] (Except.ok none)
        (some [("Client_Name", JSValue.str "Acme")])
      = ⟨[("publishedAt", JSValue.null)], 0⟩ :=
  ⟨by decide, c2_beforeUpdate_publish_guard _ _ _ (by decide)⟩

/-- C3: the Field Mapper never overwrites a truthy target field, and a
field changes only when its current value is falsy and the enrichment value
at that field is defined, non-null and non-empty (contrapositive: a truthy
current value, or an undefined/null/empty enrichment value, leaves the
field unchanged). -/
theorem c3_field_mapper_frame (target api : JSRecord) (f : String) :
    (truthy (getField target f) = true →
      getField (mapAPIFieldsToStrapi target api) f = getField target f)
    ∧ (definedB (getField api f) = false →
      getField (mapAPIFieldsToStrapi target api) f = getField target f) := by
  by_cases hmem : f ∈ fieldMappings.map Prod.fst
  · obtain ⟨p, hp, hpf⟩ := List.mem_map.mp hmem
    obtain ⟨n, hn⟩ := List.mem_iff_get.mp hp
    have hmaster := foldl_mapStep_master api fieldMappings fieldMappings_names_nodup target n
    rw [hn, hpf] at hmaster
    exact ⟨fun ht => hmaster.trans (popAt_guard_false _ _ _ (Or.inl ht)),
           fun hd => hmaster.trans (popAt_guard_false _ _ _ (Or.inr hd))⟩
  · have hne : ∀ p ∈ fieldMappings, p.1 ≠ f := by
      intro p hp hpf
      exact hmem (hpf ▸ List.mem_map_of_mem Prod.fst hp)
    have hpres := foldl_mapStep_preserves api f fieldMappings target hne
    exact ⟨fun _ => hpres, fun _ => hpres⟩

/-- Witness for C3: a truthy `Client_Name` survives an enrichment attempt
to overwrite it, and an empty-string enrichment value writes nothing. -/
theorem c3_field_mapper_frame_witness :
    getField (mapAPIFieldsToStrapi [("Client_Name", JSValue.str "Keep")]
        [("Client_Name", JSValue.str "New")]) "Client_Name" = JSValue.str "Keep"
    ∧ getField (mapAPIFieldsToStrapi [("Industry", JSValue.str "")]
        [("Industry", JSValue.str "")]) "Industry" = JSValue.str "" :=
  ⟨(c3_field_mapper_frame [("Client_Name", JSValue.str "Keep")]
      [("Client_Name", JSValue.str "New")] "Client_Name").1 (by decide),
   (c3_field_mapper_frame [("Industry", JSValue.str "")]
      [("Industry", JSValue.str "")] "Industry").2 (by decide)⟩

/-- C4: for each of the 15 enum-constrained classification fields with an
empty target slot and a non-empty string enrichment value, the Field Mapper
sets the field exactly when the value is in the field's fixed allow-list,
and leaves the field unchanged (dropped, no error) otherwise. -/
theorem c4_enum_allowlist (f : String) (target : JSRecord) (s : String)
    (hf : f ∈ ["Client_Type", "Document_Confidentiality", "Document_Type",
      "Document_Sub_Type", "Document_Outcome", "Industry", "Sub_Industry", "Service",
      "Sub_Service", "Business_Unit", "Region", "Country", "State", "City",
      "Commercial_Program"])
    (hcur : truthy (getField target f) = false) (hs : s ≠ "") :
    (s ∈ (schemaEnums f).getD [] →
      getField (mapAPIFieldsToStrapi target [(f, JSValue.str s)]) f = JSValue.str s)
    ∧ (s ∉ (schemaEnums f).getD [] →
      getField (mapAPIFieldsToStrapi target [(f, JSValue.str s)]) f = getField target f) := by
  fin_cases hf
  · exact enum_entry_behaviour "Client_Type" target s ⟨7, by decide⟩ rfl rfl hcur hs
  · exact enum_entry_behaviour "Document_Confidentiality" target s ⟨8, by decide⟩ rfl rfl hcur hs
  · exact enum_entry_behaviour "Document_Type" target s ⟨9, by decide⟩ rfl rfl hcur hs
  · exact enum_entry_behaviour "Document_Sub_Type" target s ⟨10, by decide⟩ rfl rfl hcur hs
  · exact enum_entry_behaviour "Document_Outcome" target s ⟨11, by decide⟩ rfl rfl hcur hs
  · exact enum_entry_behaviour "Industry" target s ⟨12, by decide⟩ rfl rfl hcur hs
  · exact enum_entry_behaviour "Sub_Industry" target s ⟨13, by decide⟩ rfl rfl hcur hs
  · exact enum_entry_behaviour "Service" target s ⟨14, by decide⟩ rfl rfl hcur hs
  · exact enum_entry_behaviour "Sub_Service" target s ⟨15, by decide⟩ rfl rfl hcur hs
  · exact enum_entry_behaviour "Business_Unit" target s ⟨16, by decide⟩ rfl rfl hcur hs
  · exact enum_entry_behaviour "Region" target s ⟨17, by decide⟩ rfl rfl hcur hs
  · exact enum_entry_behaviour "Country" target s ⟨18, by decide⟩ rfl rfl hcur hs
  · exact enum_entry_behaviour "State" target s ⟨19, by decide⟩ rfl rfl hcur hs
  · exact enum_entry_behaviour "City" target s ⟨20, by decide⟩ rfl rfl hcur hs
  · exact enum_entry_behaviour "Commercial_Program" target s ⟨21, by decide⟩ rfl rfl hcur hs

/-- Witness for C4: populating `Industry` with `"Industry A"` sets it, and
populating it with `"NotARealIndustry"` leaves the field absent. -/
theorem c4_enum_allowlist_witness :
    getField (mapAPIFieldsToStrapi [] [("Industry", JSValue.str "Industry A")]) "Industry"
      = JSValue.str "Industry A"
    ∧ getField (mapAPIFieldsToStrapi [] [("Industry", JSValue.str "NotARealIndustry")])
        "Industry" = JSValue.undefined :=
  ⟨(c4_enum_allowlist "Industry" [] "Industry A" (by decide) (by decide) (by decide)).1
      (by decide),
   (c4_enum_allowlist "Industry" [] "NotARealIndustry" (by decide) (by decide) (by decide)).2
      (by decide)⟩

/-- C5: a string enrichment value for `Last_Stage_Change_Date` with an
empty target slot is stored normalized to the UTC calendar-date string
`YYYY-MM-DD` when it parses as a valid date, and the field is left
unchanged (absent) when the parse fails. -/
theorem c5_date_normalization (target : JSRecord) (s : String)
    (hcur : truthy (getField target "Last_Stage_Change_Date") = false) :
    (∀ t, jsDateParse s = some t →
      getField (mapAPIFieldsToStrapi target [("Last_Stage_Change_Date", JSValue.str s)])
        "Last_Stage_Change_Date" = JSValue.str (isoDatePart t))
    ∧ (jsDateParse s = none →
      getField (mapAPIFieldsToStrapi target [("Last_Stage_Change_Date", JSValue.str s)])
        "Last_Stage_Change_Date" = getField target "Last_Stage_Change_Date") := by
  have hm := mapAPIFields_at_entry target [("Last_Stage_Change_Date", JSValue.str s)]
    ⟨23, by decide⟩ "Last_Stage_Change_Date" (some dateTransformer) rfl
  have hapi : getField [("Last_Stage_Change_Date", JSValue.str s)] "Last_Stage_Change_Date"
      = JSValue.str s := by simp [getField]
  rw [hapi] at hm
  by_cases hs : s = ""
  · subst hs
    constructor
    · intro t ht
      exact absurd ht (by simp [jsDateParse, splitSep, parseISODate, parseFixedNat])
    · intro _
      rw [hm]
      exact popAt_guard_false _ _ _ (Or.inr rfl)
  · have hdef : definedB (JSValue.str s) = true := by simp [definedB, hs]
    constructor
    · intro t ht
      have happ : applyTransformer (some dateTransformer) (JSValue.str s)
          = JSValue.str (isoDatePart t) := by
        simp [applyTransformer, dateTransformer, ht]
      rw [hm, popAt_guard_true _ _ _ hcur hdef, happ]
      simp [isNull]
    · intro ht
      have happ : applyTransformer (some dateTransformer) (JSValue.str s)
          = JSValue.null := by
        simp [applyTransformer, dateTransformer, ht]
      rw [hm, popAt_guard_true _ _ _ hcur hdef, happ]
      simp [isNull]

/-- Witness for C5: `"2024-03-15T10:00:00Z"` is stored as `"2024-03-15"`,
and `"not-a-date"` leaves the field absent. -/
theorem c5_date_normalization_witness :
    getField (mapAPIFieldsToStrapi []
        [("Last_Stage_Change_Date", JSValue.str "2024-03-15T10:00:00Z")])
      "Last_Stage_Change_Date" = JSValue.str "2024-03-15"
    ∧ getField (mapAPIFieldsToStrapi []
        [("Last_Stage_Change_Date", JSValue.str "not-a-date")])
      "Last_Stage_Change_Date" = JSValue.undefined :=
  ⟨(c5_date_normalization [] "2024-03-15T10:00:00Z" (by decide)).1 1710496800000 (by decide),
   (c5_date_normalization [] "not-a-date" (by decide)).2 (by decide)⟩

/-- C6: `rebuildIndex` submits the transformed records in sequential
batches of 100; a failed batch is counted as skipped without aborting the
remaining batches, and `indexed + skipped` always equals the number of
fetched records.  Over 250 records it issues 3 batches of sizes 100, 100
and 50, and a failure on exactly the second batch yields
`(indexed, skipped) = (150, 100)`. -/
theorem c6_rebuild_batching :
    (∀ (docs : List JSRecord) (batchOk : Nat → Bool),
      (rebuildIndex docs batchOk).1 + (rebuildIndex docs batchOk).2 = docs.length)
    ∧ (batchesOf ((List.replicate 250 ([] : JSRecord)).map transformDocumentForSearch)).map
        List.length = [100, 100, 50]
    ∧ rebuildIndex (List.replicate 250 ([] : JSRecord)) (fun k => k ≠ 1) = (150, 100) :=
  ⟨fun docs batchOk => rebuildIndex_counts docs batchOk, by decide, by decide⟩

/-- C7: `refreshIndex` runs the clear step and then the rebuild step, never
raises, and returns a structured result: `success: true` with the rebuild
stats exactly when both steps succeed, `success: false` with the failure
message otherwise. -/
theorem c7_refresh_structured_result (clearOutcome : Except String Unit)
    (rebuildOutcome : Except String (Nat × Nat)) :
    ((refreshIndex clearOutcome rebuildOutcome).success = true ↔
      clearOutcome = .ok () ∧ ∃ st, rebuildOutcome = .ok st)
    ∧ (∀ st, clearOutcome = .ok () → rebuildOutcome = .ok st →
      refreshIndex clearOutcome rebuildOutcome
        = ⟨true, "Index refreshed successfully. Indexed " ++ toString st.1 ++ " documents.",
           some st⟩)
    ∧ (∀ e, clearOutcome = .error e →
      refreshIndex clearOutcome rebuildOutcome
        = ⟨false, "Index refresh failed: " ++ e, none⟩)
    ∧ (∀ e, clearOutcome = .ok () → rebuildOutcome = .error e →
      refreshIndex clearOutcome rebuildOutcome
        = ⟨false, "Index refresh failed: " ++ e, none⟩) := by
  cases clearOutcome with
  | error e => simp [refreshIndex]
  | ok u =>
      cases u
      cases rebuildOutcome with
      | error e => simp [refreshIndex]
      | ok st => simp [refreshIndex]

/-- Witness for C7: a successful clear and a rebuild that indexed 5 and
skipped 2 yield a success result carrying the stats; a throwing clear
yields a structured failure result. -/
theorem c7_refresh_structured_result_witness :
    refreshIndex (Except.ok ()) (Except.ok (5, 2))
      = ⟨true, "Index refreshed successfully. Indexed 5 documents.", some (5, 2)⟩
    ∧ refreshIndex (Except.error "connection refused") (Except.ok (5, 2))
      = ⟨false, "Index refresh failed: connection refused", none⟩ :=
  ⟨(c7_refresh_structured_result (Except.ok ()) (Except.ok (5, 2))).2.1 (5, 2) rfl rfl,
   (c7_refresh_structured_result (Except.error "connection refused")
      (Except.ok (5, 2))).2.2.1 "connection refused" rfl⟩

/-- C8 counterexample: the claim states that mapping the description
`"Hello world"` into a record with an empty `Description` and transforming
it yields a composite searchable-text field containing the substring
`"Hello world"`.  The composite text is lowercased, so at the empty target
record it equals `"hello world"` and does not contain the verbatim
substring `"Hello world"`. -/
theorem c8_composite_lowercases_counterexample :
    searchableTextOf (mapAPIFieldsToStrapi [] [("Description", JSValue.str "Hello world")])
      = "hello world"
    ∧ ¬ ("Hello world".data <:+:
        (searchableTextOf
          (mapAPIFieldsToStrapi [] [("Description", JSValue.str "Hello world")])).data) :=
  ⟨by decide, by decide⟩

/-- C8 (amended): mapping the description `"Hello world"` into any record
with an empty `Description`, then transforming, yields a composite
searchable-text field containing the lowercased substring
`"hello world"`. -/
theorem c8_roundtrip_lowercase (target : JSRecord)
    (hcur : truthy (getField target "Description") = false) :
    "hello world".data <:+:
      (searchableTextOf
        (mapAPIFieldsToStrapi target [("Description", JSValue.str "Hello world")])).data := by
  have hm := mapAPIFields_at_entry target [("Description", JSValue.str "Hello world")]
    ⟨22, by decide⟩ "Description" (some descriptionTransformer) rfl
  have hapi : getField [("Description", JSValue.str "Hello world")] "Description"
      = JSValue.str "Hello world" := by simp [getField]
  rw [hapi] at hm
  rw [popAt_guard_true _ _ _ hcur (by decide)] at hm
  have hm2 : getField (mapAPIFieldsToStrapi target
      [("Description", JSValue.str "Hello world")]) "Description"
      = descriptionTransformer (JSValue.str "Hello world") := by
    rw [hm]
    simp [isNull, applyTransformer, descriptionTransformer]
  have hdesc : descriptionTextOf (mapAPIFieldsToStrapi target
      [("Description", JSValue.str "Hello world")]) = "Hello world" := by
    unfold descriptionTextOf
    rw [hm2]
    decide
  have hv : JSValue.str "Hello world" ∈ searchablePartsOf (mapAPIFieldsToStrapi target
      [("Description", JSValue.str "Hello world")]) := by
    have hmem : JSValue.str (descriptionTextOf (mapAPIFieldsToStrapi target
        [("Description", JSValue.str "Hello world")])) ∈ searchablePartsOf
          (mapAPIFieldsToStrapi target [("Description", JSValue.str "Hello world")]) := by
      simp [searchablePartsOf]
    rwa [hdesc] at hmem
  have hinf := searchableTextOf_contains _ (JSValue.str "Hello world") hv (by decide)
  have hlow : "hello world".data = (toJoinString (JSValue.str "Hello world")).data.map
      Char.toLower := by decide
  rw [hlow]
  exact hinf

/-- Witness for C8 (amended): at a target record carrying only a client
name, the round-trip composite text contains `"hello world"`. -/
theorem c8_roundtrip_lowercase_witness :
    truthy (getField [("Client_Name", JSValue.str "Acme")] "Description") = false
    ∧ "hello world".data <:+:
      (searchableTextOf (mapAPIFieldsToStrapi [("Client_Name", JSValue.str "Acme")]
        [("Description", JSValue.str "Hello world")])).data :=
  ⟨by decide, c8_roundtrip_lowercase [("Client_Name", JSValue.str "Acme")] (by decide)⟩

/-- C9: when the published check fails on a post-update event, and on every
post-delete event, the key passed to the index removal operation is
`result.documentId` when that field is truthy and `result.id` otherwise. -/
theorem c9_removal_key (result : JSRecord) (lookup : Except String (Option JSRecord))
    (hpub : checkIfDocumentIsPublished lookup = false) :
    (truthy (getField result "documentId") = true →
      afterUpdateAction result lookup = .removeDoc (getField result "documentId")
      ∧ afterDeleteAction result = .removeDoc (getField result "documentId"))
    ∧ (truthy (getField result "documentId") = false →
      afterUpdateAction result lookup = .removeDoc (getField result "id")
      ∧ afterDeleteAction result = .removeDoc (getField result "id")) := by
  unfold afterUpdateAction afterDeleteAction jsOr
  constructor <;> intro h <;> simp [hpub, h]

/-- Witness for C9: a record carrying `documentId "d1"` is removed under
the key `"d1"`, and a record with no `documentId` is removed under its
internal id `2`. -/
theorem c9_removal_key_witness :
    afterUpdateAction [("documentId", JSValue.str "d1"), ("id", JSValue.num 2)]
        (Except.ok none) = .removeDoc (JSValue.str "d1")
    ∧ afterDeleteAction [("id", JSValue.num 2)] = .removeDoc (JSValue.num 2) :=
  ⟨((c9_removal_key [("documentId", JSValue.str "d1"), ("id", JSValue.num 2)]
      (Except.ok none) rfl).1 (by decide)).1,
   ((c9_removal_key [("id", JSValue.num 2)] (Except.ok none) rfl).2 (by decide)).2⟩

/-- C10: the published check re-reads `publishedAt` from the store and
returns `false` whenever the lookup throws or finds no record, so the
orchestrator treats any record — published or not — as unpublished there:
post-create performs no indexing and post-update removes the document from
the index. -/
theorem c10_lookup_failure_means_unpublished (result : JSRecord) (e : String) :
    checkIfDocumentIsPublished (Except.error e) = false
    ∧ checkIfDocumentIsPublished (Except.ok none) = false
    ∧ afterCreateAction result (Except.error e) = .noAction
    ∧ afterCreateAction result (Except.ok none) = .noAction
    ∧ afterUpdateAction result (Except.error e)
      = .removeDoc (jsOr (getField result "documentId") (getField result "id"))
    ∧ afterUpdateAction result (Except.ok none)
      = .removeDoc (jsOr (getField result "documentId") (getField result "id")) :=
  ⟨rfl, rfl, rfl, rfl, rfl, rfl⟩

end CmsStrapi
